import Mathlib

/-!
Verification of the request/response correlation layer of the GENPLC MQTT
command client (`examples/mqtt_command_client.py`, class `StamPLCClient`).

The embedding models:
- JSON values (`Json`) as delivered by `json.loads`;
- the `pending_requests` dict as an insertion-ordered association list
  (`PendingMap`), with Python-dict get/set/delete semantics;
- the `_on_message` callback (`onMessage`), including the topic `elif`
  chain (`classifyTopic`), the `'id' in data and data['id'] in
  self.pending_requests` guard with Python `in`/indexing semantics
  (TypeError modelled as `Except.error`), and the enclosing try/except;
- `send_command` (`sendCommand`), with its poll-sleep wait loop
  (`waitLoop`) run against a schedule of inbound message batches, one
  batch delivered during each 0.1 s sleep, and `timeout/0.1` poll
  iterations modelled as fuel;
- the `_on_connect` callback (`onConnect`) as its sequence of effects, and
  the `connect` polling loop (`connectLoop`).
-/

namespace GenPLC

/-- JSON values as produced by `json.loads` (numbers restricted to
integers; no claim depends on float arithmetic). -/
inductive Json where
  | null : Json
  | bool (b : Bool) : Json
  | num (n : Int) : Json
  | str (s : String) : Json
  | arr (xs : List Json) : Json
  | obj (fields : List (String × Json)) : Json

/-- The `pending_requests` dict: correlation id → slot, where a slot is
`none` (registered, unresolved) or `some data` (resolved, not yet
consumed). Python string keys, insertion-ordered. -/
abbrev PendingMap := List (String × Option Json)

/-- Dict lookup: `none` = key absent (KeyError on indexing). -/
def getEntry : PendingMap → String → Option (Option Json)
  | [], _ => none
  | (k', v') :: t, k => if k' = k then some v' else getEntry t k

/-- Dict assignment `m[k] = v`: overwrite in place, or append. -/
def setEntry : PendingMap → String → Option Json → PendingMap
  | [], k, v => [(k, v)]
  | (k', v') :: t, k, v => if k' = k then (k, v) :: t else (k', v') :: setEntry t k v

/-- Dict deletion `del m[k]` (first occurrence; keys are unique). -/
def delEntry : PendingMap → String → PendingMap
  | [], _ => []
  | (k', v') :: t, k => if k' = k then t else (k', v') :: delEntry t k

/-- Dict membership `k in m`. -/
def hasKey (m : PendingMap) (k : String) : Bool :=
  (getEntry m k).isSome

/-- Number of entries stored under key `k`. -/
def keyCount (m : PendingMap) (k : String) : Nat :=
  m.countP (fun p => p.1 == k)

/-- The dict invariant: no duplicate keys. -/
def keysNodup (m : PendingMap) : Prop :=
  (m.map Prod.fst).Nodup

-- Topic constants of `StamPLCClient.__init__`.

def rpcRequestPre : String := "v1/devices/me/rpc/request"

/-- The literal string tested by `msg.topic.startswith(...)` in
`_on_message` (the response topic root including trailing slash). -/
def rpcResponsePre : String := "v1/devices/me/rpc/response/"

/-- `self.rpc_response_topic`: the wildcard subscription pattern. -/
def rpcResponseSubTopic : String := "v1/devices/me/rpc/response/+"

def telemetryTopic : String := "v1/devices/me/telemetry"

def attributesTopic : String := "v1/devices/me/attributes"

/-- Python `s.startswith(pre)`. -/
def pyStartsWith (s pre : String) : Bool :=
  List.isPrefixOf pre.data s.data

/-- Substring containment on char lists (Python `sub in s` for strings). -/
def listContainsSub (sub : List Char) : List Char → Bool
  | [] => sub.isEmpty
  | c :: t => List.isPrefixOf sub (c :: t) || listContainsSub sub (t : List Char)

/-- Python equality between JSON values as used by list membership
(`x in list`); `True == 1` and `False == 0` hold in Python. -/
def pyEq : Json → Json → Bool
  | .null, .null => true
  | .bool a, .bool b => a == b
  | .bool a, .num n => (if a then (1 : Int) else 0) == n
  | .num n, .bool a => n == (if a then (1 : Int) else 0)
  | .num a, .num b => a == b
  | .str a, .str b => a == b
  | _, _ => false

/-- Python `key in data` for a decoded JSON value: key lookup for dicts,
element membership for lists, substring test for strings; `TypeError`
(modelled as `.error ()`) otherwise. -/
def pyContains (data : Json) (key : String) : Except Unit Bool :=
  match data with
  | .obj fields => .ok (fields.any (fun p => p.1 == key))
  | .arr xs => .ok (xs.any (fun x => pyEq x (.str key)))
  | .str s => .ok (listContainsSub key.data s.data)
  | _ => .error ()

/-- Python `data[key]`: dict lookup (last binding wins, as `json.loads`
keeps the last duplicate key); `TypeError` for strings and lists indexed
by a string, and for scalars. -/
def pyIndex (data : Json) (key : String) : Except Unit Json :=
  match data with
  | .obj fields =>
    match fields.reverse.find? (fun p => p.1 == key) with
    | some p => .ok p.2
    | none => .error ()
  | _ => .error ()

/-- Python `v in self.pending_requests`: hashability check, then key
comparison. Keys of `pending_requests` are strings (`"req-…"`), and in
Python no non-string hashable compares equal to a string, so only a
`.str` value can match. Lists and dicts are unhashable (`TypeError`). -/
def pyMember (m : PendingMap) (v : Json) : Except Unit Bool :=
  match v with
  | .arr _ => .error ()
  | .obj _ => .error ()
  | .str s => .ok (hasKey m s)
  | _ => .ok false

/-- The Topic Router classification implemented by the `elif` chain of
`_on_message`, in source priority order. -/
inductive Classification where
  | rpcResponse : Classification
  | telemetry : Classification
  | attribute : Classification
  | unrecognized : Classification
deriving DecidableEq

def classifyTopic (topic : String) : Classification :=
  if pyStartsWith topic rpcResponsePre then .rpcResponse
  else if topic = telemetryTopic then .telemetry
  else if topic = attributesTopic then .attribute
  else .unrecognized

/-- Observable console output of the handler. -/
inductive LogEvent where
  | response (data : Json) : LogEvent
  | telemetry (data : Json) : LogEvent
  | attributes (data : Json) : LogEvent
  | parseError : LogEvent
  | exception : LogEvent

structure MsgResult where
  pending : PendingMap
  logs : List LogEvent

/-- The pending-table update of the RPC-response branch:
`if 'id' in data and data['id'] in self.pending_requests:
   self.pending_requests[data['id']] = data`.
Errors are Python `TypeError`s raised while evaluating the guard. -/
def rpcUpdate (pending : PendingMap) (data : Json) : Except Unit PendingMap := do
  let c ← pyContains data "id"
  if c then
    let v ← pyIndex data "id"
    let m ← pyMember pending v
    if m then
      match v with
      | .str s => return setEntry pending s (some data)
      | _ => return pending
    else
      return pending
  else
    return pending

/-- `_on_message`: `payload = none` models a `json.loads` failure
(caught by `except json.JSONDecodeError`); a `TypeError` from the guard
is caught by `except Exception` after the `[RESPONSE]` print. -/
def onMessage (pending : PendingMap) (topic : String) (payload : Option Json) :
    MsgResult :=
  match payload with
  | none => { pending := pending, logs := [.parseError] }
  | some data =>
    match classifyTopic topic with
    | .rpcResponse =>
      match rpcUpdate pending data with
      | .ok p' => { pending := p', logs := [.response data] }
      | .error _ => { pending := pending, logs := [.response data, .exception] }
    | .telemetry => { pending := pending, logs := [.telemetry data] }
    | .attribute => { pending := pending, logs := [.attributes data] }
    | .unrecognized => { pending := pending, logs := [] }

/-- `request_id = f"req-{int(time.time() * 1000)}"`. -/
def genRequestId (nowMs : Nat) : String :=
  "req-" ++ toString nowMs

/-- The request envelope `{"method": cmd_type, "params": params or {}}`. -/
def buildMessage (cmdType : String) (params : Option Json) : Json :=
  .obj [("method", .str cmdType), ("params", params.getD (.obj []))]

/-- Registration of a fresh pending slot:
`self.pending_requests[request_id] = None`. -/
def registerPending (pending : PendingMap) (requestId : String) : PendingMap :=
  setEntry pending requestId none

/-- An inbound message: topic and decode outcome of its payload. -/
abbrev Message := String × Option Json

/-- Whether handling this message writes to slot `id`: an RPC-response
topic whose payload carries `"id": id` — independent of the topic's own
trailing segment. -/
def targetsId (msg : Message) (id : String) : Bool :=
  pyStartsWith msg.1 rpcResponsePre &&
    (match msg.2 with
     | some d =>
       (match pyContains d "id" with | .ok true => true | _ => false) &&
       (match pyIndex d "id" with | .ok (.str s) => s == id | _ => false)
     | none => false)

/-- Deliver one batch of inbound messages through `_on_message`. -/
def deliverAll (pending : PendingMap) (msgs : List Message) : PendingMap :=
  msgs.foldl (fun p m => (onMessage p m.1 m.2).pending) pending

/-- One poll of the wait loop:
`if self.pending_requests[request_id] is not None: … del …; return response`.
`.error` models the `KeyError` of indexing an absent key. -/
def popSlot (pending : PendingMap) (id : String) :
    Except Unit (Option (Json × PendingMap)) :=
  match getEntry pending id with
  | none => .error ()
  | some none => .ok none
  | some (some r) => .ok (some (r, delEntry pending id))

/-- Python `del m[id]` (KeyError if absent). -/
def pyDel (pending : PendingMap) (id : String) : Except Unit PendingMap :=
  if hasKey pending id then .ok (delEntry pending id) else .error ()

def timeoutLog (id : String) : String :=
  "[TIMEOUT] No response received for " ++ id

/-- The wait loop of `send_command`: each iteration polls the slot and
then sleeps 0.1 s, during which one batch of the schedule is delivered
via `_on_message`; `fuel` is the number of polls the timeout allows.
On fuel exhaustion: `del self.pending_requests[request_id]; return None`. -/
def waitLoop : Nat → List (List Message) → PendingMap → String →
    Except Unit (Option Json × PendingMap × List String)
  | 0, _, pending, id => do
    let p' ← pyDel pending id
    return (none, p', [timeoutLog id])
  | fuel + 1, sched, pending, id => do
    match ← popSlot pending id with
    | some (r, p') => return (some r, p', [])
    | none => waitLoop fuel sched.tail (deliverAll pending (sched.headD [])) id

/-- Externally visible effects of `send_command`, in program order. -/
inductive Action where
  | register (id : String) : Action
  | publish (topic : String) (payload : Json) : Action
  | logLine (s : String) : Action

def isRegisterAct : Action → Bool
  | .register _ => true
  | _ => false

def isPublishAct : Action → Bool
  | .publish _ _ => true
  | _ => false

/-- Index of the first list element satisfying `p`. -/
def firstIdxWhere {α : Type} (p : α → Bool) : List α → Option Nat
  | [] => none
  | a :: t => if p a then some 0 else (firstIdxWhere p t).map (· + 1)

structure SendResult where
  ret : Option Json
  pending : PendingMap
  actions : List Action

/-- `send_command(cmd_type, params, wait_response, timeout)`.
`ret = none` is Python `None` (not-connected and timeout paths);
`fuel`/`sched` drive the wait loop as in `waitLoop`. An uncaught
`KeyError` surfaces as `.error`. -/
def sendCommand (connected : Bool) (pending : PendingMap) (cmdType : String)
    (params : Option Json) (waitResponse : Bool) (fuel : Nat)
    (sched : List (List Message)) (nowMs : Nat) : Except Unit SendResult :=
  if connected = false then
    .ok { ret := none, pending := pending,
          actions := [.logLine "Not connected to broker"] }
  else
    let requestId := genRequestId nowMs
    let message := buildMessage cmdType params
    let pending1 := if waitResponse then registerPending pending requestId else pending
    let regActs : List Action := if waitResponse then [.register requestId] else []
    let rpcTopic := rpcRequestPre ++ "/" ++ requestId
    let pubActs : List Action :=
      [.publish rpcTopic message,
       .logLine ("[SENT] Command: " ++ cmdType ++ ", ID: " ++ requestId)]
    if waitResponse then
      match waitLoop fuel sched pending1 requestId with
      | .error e => .error e
      | .ok (ret, pending2, logs) =>
        .ok { ret := ret, pending := pending2,
              actions := regActs ++ pubActs ++ logs.map .logLine }
    else
      .ok { ret := some (.obj [("status", .str "sent")]), pending := pending1,
            actions := regActs ++ pubActs }

/-- Effects of `_on_connect`, in program order. -/
inductive ConnectAction where
  | setConnected : ConnectAction
  | subscribe (topic : String) : ConnectAction
  | logLine (s : String) : ConnectAction
deriving DecidableEq

def isSetConnectedAct : ConnectAction → Bool
  | .setConnected => true
  | _ => false

def isSubscribeAct : ConnectAction → Bool
  | .subscribe _ => true
  | _ => false

/-- `_on_connect(client, userdata, flags, rc)`: on `rc == 0` it prints,
sets `self.connected = True`, then subscribes to the three topics. -/
def onConnect (rc : Nat) : List ConnectAction :=
  if rc = 0 then
    [.logLine "Connected to MQTT broker",
     .setConnected,
     .subscribe rpcResponseSubTopic,
     .subscribe telemetryTopic,
     .subscribe attributesTopic,
     .logLine "Subscribed to RPC responses, telemetry, and attributes"]
  else
    [.logLine "Connection failed"]

/-- The connected flag after `_on_connect` fires with result `rc`. -/
def connectFlagAfter (prev : Bool) (rc : Nat) : Bool :=
  if rc = 0 then true else prev

/-- The polling loop of `connect`: up to `polls` sleep cycles; during each
sleep `_on_connect` may fire (`some rc`). Returns the final value of
`self.connected`, which is `connect`'s return value. -/
def connectLoop : Nat → Bool → List (Option Nat) → Bool
  | 0, connected, _ => connected
  | polls + 1, connected, evs =>
    if connected then true
    else
      connectLoop polls
        (match evs.headD none with
         | some rc => connectFlagAfter connected rc
         | none => connected)
        evs.tail

/-! ### Concrete fixtures for witnesses and counterexamples -/

/-- A well-formed success response for correlation id `req-1000`. -/
def respSuccess : Json :=
  .obj [("id", .str "req-1000"), ("status", .str "success"),
        ("data", .obj [("latitude", .num 37), ("longitude", .num (-122))])]

/-- First response delivered for `req-1000`. -/
def respFirst : Json :=
  .obj [("id", .str "req-1000"), ("status", .str "success")]

/-- Second (duplicate) response delivered for `req-1000`. -/
def respSecond : Json :=
  .obj [("id", .str "req-1000"), ("status", .str "error")]

/-- A response whose payload id (`req-2000`) differs from the correlation
segment of the topic it arrives on. -/
def crossIdResp : Json :=
  .obj [("id", .str "req-2000")]

/-- Schedule delivering two responses for the same id in one poll window. -/
def dupSched : List (List Message) :=
  [[("v1/devices/me/rpc/response/req-1000", some respFirst),
    ("v1/devices/me/rpc/response/req-1000", some respSecond)]]

/-- The result of `sendCommand true [] "get_gps" none true 1 [] 1000`
(a run that times out after one poll). -/
def c6Res : SendResult :=
  { ret := none, pending := [],
    actions := [.register "req-1000",
                .publish "v1/devices/me/rpc/request/req-1000"
                  (.obj [("method", .str "get_gps"), ("params", .obj [])]),
                .logLine "[SENT] Command: get_gps, ID: req-1000",
                .logLine "[TIMEOUT] No response received for req-1000"] }

/-! ### Dictionary lemmas -/

theorem getEntry_setEntry_self (m : PendingMap) (k : String) (v : Option Json) :
    getEntry (setEntry m k v) k = some v := by
  induction m with
  | nil => simp [setEntry, getEntry]
  | cons p t ih =>
    obtain ⟨k', v'⟩ := p
    by_cases h : k' = k
    · simp [setEntry, getEntry, h]
    · simp [setEntry, getEntry, h, ih]

theorem getEntry_setEntry_ne (m : PendingMap) (k k' : String) (v : Option Json)
    (h : k' ≠ k) : getEntry (setEntry m k v) k' = getEntry m k' := by
  induction m with
  | nil => simp [setEntry, getEntry, Ne.symm h]
  | cons p t ih =>
    obtain ⟨k'', v''⟩ := p
    by_cases hk : k'' = k
    · subst hk
      simp [setEntry, getEntry, Ne.symm h]
    · simp only [setEntry, if_neg hk, getEntry]
      by_cases hk' : k'' = k'
      · simp [hk']
      · simp [hk', ih]

theorem getEntry_eq_none_of_not_mem (m : PendingMap) (k : String)
    (h : k ∉ m.map Prod.fst) : getEntry m k = none := by
  induction m with
  | nil => rfl
  | cons p t ih =>
    obtain ⟨k', v'⟩ := p
    simp only [List.map_cons, List.mem_cons] at h
    push_neg at h
    simp [getEntry, Ne.symm h.1, ih h.2]

theorem getEntry_delEntry_self (m : PendingMap) (k : String) (h : keysNodup m) :
    getEntry (delEntry m k) k = none := by
  induction m with
  | nil => rfl
  | cons p t ih =>
    obtain ⟨k', v'⟩ := p
    simp only [keysNodup, List.map_cons, List.nodup_cons] at h
    by_cases hk : k' = k
    · subst hk
      simpa [delEntry] using getEntry_eq_none_of_not_mem t k' h.1
    · simpa [delEntry, hk, getEntry] using ih h.2

theorem getEntry_delEntry_ne (m : PendingMap) (k k' : String) (h : k' ≠ k) :
    getEntry (delEntry m k) k' = getEntry m k' := by
  induction m with
  | nil => rfl
  | cons p t ih =>
    obtain ⟨k'', v''⟩ := p
    by_cases hk : k'' = k
    · subst hk
      simp [delEntry, getEntry, Ne.symm h]
    · by_cases hk' : k'' = k'
      · simp [delEntry, hk, getEntry, hk', h]
      · simp [delEntry, hk, getEntry, hk', ih]

theorem mem_keys_setEntry (m : PendingMap) (k a : String) (v : Option Json) :
    a ∈ (setEntry m k v).map Prod.fst ↔ a = k ∨ a ∈ m.map Prod.fst := by
  induction m with
  | nil => simp [setEntry]
  | cons p t ih =>
    obtain ⟨k', v'⟩ := p
    by_cases hk : k' = k
    · subst hk
      simp [setEntry]
    · simp only [setEntry, if_neg hk, List.map_cons, List.mem_cons, ih]
      tauto

theorem keysNodup_setEntry (m : PendingMap) (k : String) (v : Option Json)
    (h : keysNodup m) : keysNodup (setEntry m k v) := by
  induction m with
  | nil => simp [setEntry, keysNodup]
  | cons p t ih =>
    obtain ⟨k', v'⟩ := p
    simp only [keysNodup, List.map_cons, List.nodup_cons] at h
    by_cases hk : k' = k
    · subst hk
      simpa [setEntry, keysNodup] using h
    · have := ih h.2
      simp only [keysNodup, setEntry, if_neg hk, List.map_cons, List.nodup_cons]
      exact ⟨fun hm => by
        rcases (mem_keys_setEntry t k k' v).1 hm with h' | h'
        · exact hk h'
        · exact h.1 h', this⟩

theorem mem_keys_delEntry (m : PendingMap) (k a : String)
    (h : a ∈ (delEntry m k).map Prod.fst) : a ∈ m.map Prod.fst := by
  induction m with
  | nil => simp [delEntry] at h
  | cons p t ih =>
    obtain ⟨k', v'⟩ := p
    by_cases hk : k' = k
    · simp only [delEntry, if_pos hk] at h
      simp only [List.map_cons, List.mem_cons]
      exact Or.inr h
    · simp only [delEntry, if_neg hk, List.map_cons, List.mem_cons] at h ⊢
      rcases h with h | h
      · exact Or.inl h
      · exact Or.inr (ih h)

theorem keysNodup_delEntry (m : PendingMap) (k : String) (h : keysNodup m) :
    keysNodup (delEntry m k) := by
  induction m with
  | nil => simpa [delEntry] using h
  | cons p t ih =>
    obtain ⟨k', v'⟩ := p
    simp only [keysNodup, List.map_cons, List.nodup_cons] at h
    by_cases hk : k' = k
    · simpa [delEntry, hk, keysNodup] using h.2
    · simp only [keysNodup, delEntry, if_neg hk, List.map_cons, List.nodup_cons]
      exact ⟨fun hm => h.1 (mem_keys_delEntry t k k' hm), ih h.2⟩

theorem keyCount_eq_zero_of_not_mem (m : PendingMap) (k : String)
    (h : k ∉ m.map Prod.fst) : keyCount m k = 0 := by
  induction m with
  | nil => rfl
  | cons p t ih =>
    obtain ⟨k', v'⟩ := p
    simp only [List.map_cons, List.mem_cons] at h
    push_neg at h
    simp only [keyCount, List.countP_cons] at *
    have hb : (k' == k) = false := by
      simp [Ne.symm h.1]
    simp [hb, ih h.2]

theorem keyCount_setEntry_self (m : PendingMap) (k : String) (v : Option Json)
    (h : keysNodup m) : keyCount (setEntry m k v) k = 1 := by
  induction m with
  | nil => simp [setEntry, keyCount]
  | cons p t ih =>
    obtain ⟨k', v'⟩ := p
    simp only [keysNodup, List.map_cons, List.nodup_cons] at h
    by_cases hk : k' = k
    · subst hk
      have h0 : List.countP (fun p => p.1 == k') t = 0 := by
        simpa [keyCount] using keyCount_eq_zero_of_not_mem t k' h.1
      simp [setEntry, keyCount, List.countP_cons, h0]
    · have hb : (k' == k) = false := by simp [hk]
      have h1 : List.countP (fun p => p.1 == k) (setEntry t k v) = 1 := by
        simpa [keyCount] using ih h.2
      simp [setEntry, if_neg hk, keyCount, List.countP_cons, h1, hb]

theorem setEntry_setEntry_self (m : PendingMap) (k : String) (v v' : Option Json) :
    setEntry (setEntry m k v) k v' = setEntry m k v' := by
  induction m with
  | nil => simp [setEntry]
  | cons p t ih =>
    obtain ⟨k'', v''⟩ := p
    by_cases hk : k'' = k
    · simp [setEntry, hk]
    · simp [setEntry, hk, ih]

/-! ### String helper lemmas -/

theorem isPrefixOf_append_self (l t : List Char) :
    List.isPrefixOf l (l ++ t) = true := by
  induction l with
  | nil => simp [List.isPrefixOf]
  | cons c cs ih => simp [List.isPrefixOf, ih]

theorem pyStartsWith_append (pre suf : String) :
    pyStartsWith (pre ++ suf) pre = true := by
  simp only [pyStartsWith, String.data_append]
  exact isPrefixOf_append_self pre.data suf.data

/-! ### Handler characterization lemmas -/

@[simp] theorem exceptBindOk {α β : Type} (a : α) (f : α → Except Unit β) :
    (Except.ok a >>= f : Except Unit β) = f a := rfl

@[simp] theorem exceptBindError {α β : Type} (e : Unit) (f : α → Except Unit β) :
    ((Except.error e : Except Unit α) >>= f) = Except.error e := rfl

@[simp] theorem exceptPureOk {α : Type} (a : α) :
    (pure a : Except Unit α) = Except.ok a := rfl

theorem classifyTopic_rpc (topic : String)
    (h : pyStartsWith topic rpcResponsePre = true) :
    classifyTopic topic = .rpcResponse := by
  simp [classifyTopic, h]

/-- A well-formed RPC response whose payload `id` names a registered slot
resolves exactly that slot, regardless of anything else in the topic. -/
theorem onMessage_resolves (pending : PendingMap) (topic : String) (d : Json)
    (id : String)
    (htop : pyStartsWith topic rpcResponsePre = true)
    (hc : pyContains d "id" = .ok true)
    (hi : pyIndex d "id" = .ok (.str id))
    (hk : hasKey pending id = true) :
    (onMessage pending topic (some d)).pending = setEntry pending id (some d) := by
  simp [onMessage, classifyTopic_rpc topic htop, rpcUpdate, hc, hi, pyMember, hk]

/-- A message that does not carry `id` in a well-formed RPC-response
payload leaves slot `id` untouched (it may touch other slots). -/
theorem getEntry_onMessage_not_target (pending : PendingMap) (topic : String)
    (payload : Option Json) (id : String)
    (h : targetsId (topic, payload) id = false) :
    getEntry (onMessage pending topic payload).pending id = getEntry pending id := by
  match payload with
  | none => rfl
  | some d =>
    by_cases htop : pyStartsWith topic rpcResponsePre = true
    · simp only [targetsId, htop, Bool.true_and] at h
      simp only [onMessage, classifyTopic_rpc topic htop]
      match hpc : pyContains d "id" with
      | .error u => cases u; simp [rpcUpdate, hpc]
      | .ok false => simp [rpcUpdate, hpc]
      | .ok true =>
        simp only [hpc, Bool.true_and] at h
        match hpi : pyIndex d "id" with
        | .error u => cases u; simp [rpcUpdate, hpc, hpi]
        | .ok v =>
          simp only [hpi] at h
          match v with
          | .null => simp [rpcUpdate, hpc, hpi, pyMember]
          | .bool b => simp [rpcUpdate, hpc, hpi, pyMember]
          | .num n => simp [rpcUpdate, hpc, hpi, pyMember]
          | .arr xs => simp [rpcUpdate, hpc, hpi, pyMember]
          | .obj fs => simp [rpcUpdate, hpc, hpi, pyMember]
          | .str s =>
            have hs : s ≠ id := by
              intro hh
              simp [hh] at h
            by_cases hm : hasKey pending s = true
            · simp [rpcUpdate, hpc, hpi, pyMember, hm,
                    getEntry_setEntry_ne pending s id (some d) (Ne.symm hs)]
            · simp only [Bool.not_eq_true] at hm
              simp [rpcUpdate, hpc, hpi, pyMember, hm]
    · simp only [Bool.not_eq_true] at htop
      simp only [onMessage, classifyTopic, htop, Bool.false_eq_true, if_false]
      by_cases h1 : topic = telemetryTopic
      · simp [h1]
      · by_cases h2 : topic = attributesTopic
        · simp [h1, h2, show attributesTopic ≠ telemetryTopic from by decide]
        · simp [h1, h2]

/-- Every successful handler step either leaves the table unchanged or
overwrites one existing slot with the decoded payload. -/
theorem onMessage_pending_shape (pending : PendingMap) (topic : String)
    (payload : Option Json) :
    (onMessage pending topic payload).pending = pending ∨
      ∃ s d, payload = some d ∧
        (onMessage pending topic payload).pending = setEntry pending s (some d) := by
  match payload with
  | none => exact Or.inl rfl
  | some d =>
    match hcl : classifyTopic topic with
    | .telemetry => exact Or.inl (by simp [onMessage, hcl])
    | .attribute => exact Or.inl (by simp [onMessage, hcl])
    | .unrecognized => exact Or.inl (by simp [onMessage, hcl])
    | .rpcResponse =>
      match hpc : pyContains d "id" with
      | .error u => exact Or.inl (by cases u; simp [onMessage, hcl, rpcUpdate, hpc])
      | .ok false => exact Or.inl (by simp [onMessage, hcl, rpcUpdate, hpc])
      | .ok true =>
        match hpi : pyIndex d "id" with
        | .error u => exact Or.inl (by cases u; simp [onMessage, hcl, rpcUpdate, hpc, hpi])
        | .ok .null => exact Or.inl (by simp [onMessage, hcl, rpcUpdate, hpc, hpi, pyMember])
        | .ok (.bool b) => exact Or.inl (by simp [onMessage, hcl, rpcUpdate, hpc, hpi, pyMember])
        | .ok (.num n) => exact Or.inl (by simp [onMessage, hcl, rpcUpdate, hpc, hpi, pyMember])
        | .ok (.arr xs) => exact Or.inl (by simp [onMessage, hcl, rpcUpdate, hpc, hpi, pyMember])
        | .ok (.obj fs) => exact Or.inl (by simp [onMessage, hcl, rpcUpdate, hpc, hpi, pyMember])
        | .ok (.str s) =>
          by_cases hm : hasKey pending s = true
          · exact Or.inr ⟨s, d, rfl,
              by simp [onMessage, hcl, rpcUpdate, hpc, hpi, pyMember, hm]⟩
          · simp only [Bool.not_eq_true] at hm
            exact Or.inl (by simp [onMessage, hcl, rpcUpdate, hpc, hpi, pyMember, hm])

theorem keysNodup_onMessage (pending : PendingMap) (topic : String)
    (payload : Option Json) (h : keysNodup pending) :
    keysNodup (onMessage pending topic payload).pending := by
  rcases onMessage_pending_shape pending topic payload with hsh | ⟨s, d, _, hsh⟩
  · rw [hsh]; exact h
  · rw [hsh]; exact keysNodup_setEntry pending s (some d) h

/-! ### Delivery-batch lemmas -/

theorem getEntry_deliverAll_not_target (batch : List Message) (id : String) :
    ∀ pending : PendingMap, (∀ m ∈ batch, targetsId m id = false) →
      getEntry (deliverAll pending batch) id = getEntry pending id := by
  induction batch with
  | nil => intro pending _; rfl
  | cons m t ih =>
    intro pending h
    have hm := h m (List.mem_cons_self m t)
    have hrest : ∀ m' ∈ t, targetsId m' id = false :=
      fun m' hm' => h m' (List.mem_cons_of_mem m hm')
    simp only [deliverAll, List.foldl_cons]
    have := ih ((onMessage pending m.1 m.2).pending) hrest
    simp only [deliverAll] at this
    rw [this, getEntry_onMessage_not_target pending m.1 m.2 id (by simpa using hm)]

theorem keysNodup_deliverAll (batch : List Message) :
    ∀ pending : PendingMap, keysNodup pending → keysNodup (deliverAll pending batch) := by
  induction batch with
  | nil => intro pending h; exact h
  | cons m t ih =>
    intro pending h
    simp only [deliverAll, List.foldl_cons]
    have := ih ((onMessage pending m.1 m.2).pending)
      (keysNodup_onMessage pending m.1 m.2 h)
    simpa [deliverAll] using this

/-! ### Wait-loop lemmas -/

/-- If no scheduled message writes to slot `id`, the wait loop exhausts its
fuel, returns `None` with the timeout diagnostic naming `id`, and removes
the slot. -/
theorem waitLoop_timeout (fuel : Nat) :
    ∀ (sched : List (List Message)) (pending : PendingMap) (id : String),
      keysNodup pending → getEntry pending id = some none →
      (∀ batch ∈ sched, ∀ m ∈ batch, targetsId m id = false) →
      ∃ p', waitLoop fuel sched pending id = .ok (none, p', [timeoutLog id]) ∧
        getEntry p' id = none := by
  induction fuel with
  | zero =>
    intro sched pending id hn hslot _
    refine ⟨delEntry pending id, ?_, getEntry_delEntry_self pending id hn⟩
    simp [waitLoop, pyDel, hasKey, hslot]
  | succ f ih =>
    intro sched pending id hn hslot hs
    have hhead : ∀ m ∈ sched.headD [], targetsId m id = false := by
      match sched with
      | [] => intro m hm; simp at hm
      | b :: t => exact hs b (List.mem_cons_self b t)
    have htail : ∀ batch ∈ sched.tail, ∀ m ∈ batch, targetsId m id = false :=
      fun batch hb => hs batch (List.mem_of_mem_tail hb)
    have hn2 : keysNodup (deliverAll pending (sched.headD [])) :=
      keysNodup_deliverAll (sched.headD []) pending hn
    have hslot2 : getEntry (deliverAll pending (sched.headD [])) id = some none := by
      rw [getEntry_deliverAll_not_target (sched.headD []) id pending hhead]
      exact hslot
    obtain ⟨p', hw, hg⟩ := ih sched.tail (deliverAll pending (sched.headD [])) id hn2 hslot2 htail
    refine ⟨p', ?_, hg⟩
    have hw' : waitLoop f sched.tail (deliverAll pending (sched.head?.getD [])) id =
        Except.ok (none, p', [timeoutLog id]) := by
      simpa [List.headD_eq_head?] using hw
    simp [waitLoop, popSlot, hslot, hw']

/-- If the batches before some point never write to slot `id`, and that
point delivers a well-formed response for `id`, the wait loop returns
exactly that response and removes the slot. -/
theorem waitLoop_resolve (pre : List (List Message)) :
    ∀ (fuel : Nat) (rest : List (List Message)) (pending : PendingMap)
      (id topic : String) (r : Json),
      keysNodup pending → getEntry pending id = some none →
      (∀ batch ∈ pre, ∀ m ∈ batch, targetsId m id = false) →
      pre.length + 2 ≤ fuel →
      pyStartsWith topic rpcResponsePre = true →
      pyContains r "id" = .ok true →
      pyIndex r "id" = .ok (.str id) →
      ∃ p', waitLoop fuel (pre ++ [(topic, some r)] :: rest) pending id =
          .ok (some r, p', []) ∧ getEntry p' id = none := by
  induction pre with
  | nil =>
    intro fuel rest pending id topic r hn hslot _ hfuel htop hc hi
    obtain ⟨f, rfl⟩ : ∃ f, fuel = f + 2 := ⟨fuel - 2, by omega⟩
    have hres : (onMessage pending topic (some r)).pending = setEntry pending id (some r) :=
      onMessage_resolves pending topic r id htop hc hi (by simp [hasKey, hslot])
    have hn2 : keysNodup (setEntry pending id (some r)) :=
      keysNodup_setEntry pending id (some r) hn
    refine ⟨delEntry (setEntry pending id (some r)) id, ?_,
      getEntry_delEntry_self _ id hn2⟩
    simp [waitLoop, popSlot, hslot, deliverAll, hres,
      getEntry_setEntry_self pending id (some r)]
  | cons b pre' ih =>
    intro fuel rest pending id topic r hn hslot hpre hfuel htop hc hi
    obtain ⟨f, rfl⟩ : ∃ f, fuel = f + 1 := ⟨fuel - 1, by omega⟩
    have hb : ∀ m ∈ b, targetsId m id = false := hpre b (List.mem_cons_self b pre')
    have hrest : ∀ batch ∈ pre', ∀ m ∈ batch, targetsId m id = false :=
      fun batch hbm => hpre batch (List.mem_cons_of_mem b hbm)
    have hn2 : keysNodup (deliverAll pending b) := keysNodup_deliverAll b pending hn
    have hslot2 : getEntry (deliverAll pending b) id = some none := by
      rw [getEntry_deliverAll_not_target b id pending hb]; exact hslot
    obtain ⟨p', hw, hg⟩ := ih f rest (deliverAll pending b) id topic r hn2 hslot2 hrest
      (by simpa using Nat.le_of_succ_le_succ (by simpa [List.length_cons] using hfuel))
      htop hc hi
    refine ⟨p', ?_, hg⟩
    simp [waitLoop, popSlot, hslot, hw]

/-! ### Claim theorems -/

/-- C1: for every registered correlation id, if an inbound response whose
payload id equals that id is delivered via `_on_message` while
`send_command` is awaiting it within the timeout (after some batches that
do not write to this id), `send_command` returns exactly that decoded
response object unchanged and removes the id from `pending_requests`. -/
theorem claimC1_matching_response_returned (pending : PendingMap) (cmd : String)
    (params : Option Json) (nowMs fuel : Nat) (pre rest : List (List Message))
    (topic : String) (r : Json)
    (hn : keysNodup pending)
    (hpre : ∀ batch ∈ pre, ∀ m ∈ batch, targetsId m (genRequestId nowMs) = false)
    (hfuel : pre.length + 2 ≤ fuel)
    (htop : pyStartsWith topic rpcResponsePre = true)
    (hc : pyContains r "id" = .ok true)
    (hi : pyIndex r "id" = .ok (.str (genRequestId nowMs))) :
    ∃ res, sendCommand true pending cmd params true fuel
        (pre ++ [(topic, some r)] :: rest) nowMs = .ok res ∧
      res.ret = some r ∧ getEntry res.pending (genRequestId nowMs) = none := by
  obtain ⟨p', hw, hg⟩ := waitLoop_resolve pre fuel rest
    (registerPending pending (genRequestId nowMs)) (genRequestId nowMs) topic r
    (keysNodup_setEntry pending (genRequestId nowMs) none hn)
    (getEntry_setEntry_self pending (genRequestId nowMs) none)
    hpre hfuel htop hc hi
  refine ⟨{ ret := some r, pending := p',
            actions := [.register (genRequestId nowMs),
                        .publish (rpcRequestPre ++ "/" ++ genRequestId nowMs)
                          (buildMessage cmd params),
                        .logLine ("[SENT] Command: " ++ cmd ++ ", ID: " ++ genRequestId nowMs)] },
    ?_, rfl, hg⟩
  simp [sendCommand, hw]

/-- C1 witness: a concrete resolved run. -/
theorem claimC1_witness :
    ∃ res, sendCommand true [] "get_gps" none true 2
        [[("v1/devices/me/rpc/response/req-1000", some respSuccess)]] 1000 = .ok res ∧
      res.ret = some respSuccess ∧ getEntry res.pending (genRequestId 1000) = none :=
  claimC1_matching_response_returned [] "get_gps" none 1000 2 [] []
    "v1/devices/me/rpc/response/req-1000" respSuccess
    (by simp [keysNodup]) (by simp) (by decide) (by decide) rfl rfl

/-- C3: if no resolution for the registered id occurs within the timeout,
`send_command` returns `None`, prints the timeout diagnostic carrying the
correlation id, and `pending_requests` contains no entry for the id. -/
theorem claimC3_timeout_removes_slot (pending : PendingMap) (cmd : String)
    (params : Option Json) (nowMs fuel : Nat) (sched : List (List Message))
    (hn : keysNodup pending)
    (hsched : ∀ batch ∈ sched, ∀ m ∈ batch, targetsId m (genRequestId nowMs) = false) :
    ∃ res, sendCommand true pending cmd params true fuel sched nowMs = .ok res ∧
      res.ret = none ∧ getEntry res.pending (genRequestId nowMs) = none ∧
      Action.logLine (timeoutLog (genRequestId nowMs)) ∈ res.actions := by
  obtain ⟨p', hw, hg⟩ := waitLoop_timeout fuel sched
    (registerPending pending (genRequestId nowMs)) (genRequestId nowMs)
    (keysNodup_setEntry pending (genRequestId nowMs) none hn)
    (getEntry_setEntry_self pending (genRequestId nowMs) none)
    hsched
  refine ⟨{ ret := none, pending := p',
            actions := [.register (genRequestId nowMs),
                        .publish (rpcRequestPre ++ "/" ++ genRequestId nowMs)
                          (buildMessage cmd params),
                        .logLine ("[SENT] Command: " ++ cmd ++ ", ID: " ++ genRequestId nowMs),
                        .logLine (timeoutLog (genRequestId nowMs))] },
    ?_, rfl, hg, by simp⟩
  simp [sendCommand, hw]

/-- C3 witness: a concrete timed-out run. -/
theorem claimC3_witness :
    ∃ res, sendCommand true [] "reboot" (some (.obj [("delay_ms", .num 5000)]))
        true 1 [] 1000 = .ok res ∧
      res.ret = none ∧ getEntry res.pending (genRequestId 1000) = none ∧
      Action.logLine (timeoutLog (genRequestId 1000)) ∈ res.actions :=
  claimC3_timeout_removes_slot [] "reboot" (some (.obj [("delay_ms", .num 5000)]))
    1000 1 [] (by simp [keysNodup]) (by simp)

/-- C6: on every completed `send_command` call with `wait_response` true,
the pending slot is registered strictly before the request is published:
the registration is the first recorded effect and the publish the second. -/
theorem claimC6_register_before_publish (pending : PendingMap) (cmd : String)
    (params : Option Json) (fuel : Nat) (sched : List (List Message))
    (nowMs : Nat) (res : SendResult)
    (h : sendCommand true pending cmd params true fuel sched nowMs = .ok res) :
    firstIdxWhere isRegisterAct res.actions = some 0 ∧
      firstIdxWhere isPublishAct res.actions = some 1 := by
  cases hw : waitLoop fuel sched (registerPending pending (genRequestId nowMs))
      (genRequestId nowMs) with
  | error e =>
    simp [sendCommand, hw] at h
  | ok trip =>
    obtain ⟨ret, p2, logs⟩ := trip
    simp [sendCommand, hw] at h
    subst h
    simp [firstIdxWhere, isRegisterAct, isPublishAct]

/-- C6 witness: the run `sendCommand true [] "get_gps" none true 1 [] 1000`
completes with result `c6Res`. -/
theorem claimC6_witness :
    firstIdxWhere isRegisterAct c6Res.actions = some 0 ∧
      firstIdxWhere isPublishAct c6Res.actions = some 1 :=
  claimC6_register_before_publish [] "get_gps" none 1 [] 1000 c6Res rfl

/-- C10: `send_command` while not connected returns `None` immediately,
publishes nothing (its only effect is the diagnostic print), and leaves
`pending_requests` unchanged; and a timed-out call also returns `None`,
so the `None` return value alone does not distinguish the two. -/
theorem claimC10_not_connected (pending : PendingMap) (cmd : String)
    (params : Option Json) (wait : Bool) (fuel : Nat)
    (sched : List (List Message)) (nowMs : Nat) :
    sendCommand false pending cmd params wait fuel sched nowMs =
      .ok { ret := none, pending := pending,
            actions := [.logLine "Not connected to broker"] } ∧
    Except.map SendResult.ret (sendCommand true [] "get_gps" none true 1 [] 1000) =
      .ok none :=
  ⟨rfl, rfl⟩

/-- Helper: `connect` can only return true if `_on_connect` fired with
result code 0 during some poll window. -/
theorem connectLoop_true_mem (polls : Nat) :
    ∀ evs : List (Option Nat), connectLoop polls false evs = true → some 0 ∈ evs := by
  induction polls with
  | zero =>
    intro evs h
    simp [connectLoop] at h
  | succ p ih =>
    intro evs h
    match evs with
    | [] =>
      simp only [connectLoop, Bool.false_eq_true, if_false, List.headD_nil,
        List.tail_nil] at h
      exact absurd (ih [] h) (by simp)
    | e :: t =>
      simp only [connectLoop, Bool.false_eq_true, if_false, List.headD_cons,
        List.tail_cons] at h
      match e with
      | some rc =>
        by_cases hrc : rc = 0
        · subst hrc
          exact List.mem_cons_self _ _
        · simp only [connectFlagAfter, if_neg hrc] at h
          exact List.mem_cons_of_mem _ (ih t h)
      | none =>
        exact List.mem_cons_of_mem _ (ih t h)

/-- C2 counterexample: with slot `req-1000` already resolved by the first
response but not yet consumed, a second inbound response for the same id
is not a no-op: it overwrites the slot, and the waiting `send_command`
returns the second response, not the first. -/
theorem claimC2_counterexample :
    Except.map SendResult.ret (sendCommand true [] "get_gps" none true 3 dupSched 1000)
      = .ok (some respSecond) ∧ respSecond ≠ respFirst := by
  refine ⟨rfl, ?_⟩
  simp [respSecond, respFirst]

/-- C2 amended: a second response for an id whose slot has already been
removed (consumed or timed out) is a silent no-op; but a response arriving
while the slot still exists — resolved or not — overwrites it (last write
wins, not first write wins). -/
theorem claimC2_amended (pending : PendingMap) (topic : String) (d : Json)
    (id : String) (hi : pyIndex d "id" = .ok (.str id)) :
    (hasKey pending id = false →
      (onMessage pending topic (some d)).pending = pending) ∧
    (∀ d1, pyStartsWith topic rpcResponsePre = true →
      pyContains d "id" = .ok true →
      getEntry pending id = some (some d1) →
      (onMessage pending topic (some d)).pending = setEntry pending id (some d)) := by
  constructor
  · intro hk
    match hcl : classifyTopic topic with
    | .telemetry => simp [onMessage, hcl]
    | .attribute => simp [onMessage, hcl]
    | .unrecognized => simp [onMessage, hcl]
    | .rpcResponse =>
      match hpc : pyContains d "id" with
      | .error u => cases u; simp [onMessage, hcl, rpcUpdate, hpc]
      | .ok false => simp [onMessage, hcl, rpcUpdate, hpc]
      | .ok true => simp [onMessage, hcl, rpcUpdate, hpc, hi, pyMember, hk]
  · intro d1 htop hc hslot
    exact onMessage_resolves pending topic d id htop hc hi (by simp [hasKey, hslot])

/-- C2 witness: a duplicate after removal is dropped; a duplicate while the
filled slot survives overwrites it. -/
theorem claimC2_witness :
    (onMessage [] "v1/devices/me/rpc/response/req-1000" (some respSecond)).pending
      = [] ∧
    (onMessage [("req-1000", some respFirst)] "v1/devices/me/rpc/response/req-1000"
        (some respSecond)).pending
      = setEntry [("req-1000", some respFirst)] "req-1000" (some respSecond) :=
  ⟨(claimC2_amended [] "v1/devices/me/rpc/response/req-1000" respSecond "req-1000"
      rfl).1 rfl,
   (claimC2_amended [("req-1000", some respFirst)]
      "v1/devices/me/rpc/response/req-1000" respSecond "req-1000" rfl).2
      respFirst rfl rfl rfl⟩

/-- C4 counterexample: two distinct `send_command` calls issued within the
same millisecond (same `int(time.time()*1000)`) register the SAME
correlation id, not distinct ids. -/
theorem claimC4_counterexample :
    Except.map (fun res => res.actions.head?)
        (sendCommand true [] "get_gps" none true 1 [] 1000)
      = .ok (some (.register "req-1000")) ∧
    Except.map (fun res => res.actions.head?)
        (sendCommand true [] "get_stats" none true 1 [] 1000)
      = .ok (some (.register "req-1000")) :=
  ⟨rfl, rfl⟩

/-- C4 amended: the table never holds two slots for one id (it is a dict
keyed by the id), but same-millisecond calls share one id: registering the
id generated at one millisecond twice collapses to a single slot — the
second registration overwrites the first instead of creating a distinct
outstanding slot. Distinctness of ids is only given by distinct
millisecond timestamps. -/
theorem claimC4_amended (pending : PendingMap) (nowMs : Nat)
    (h : keysNodup pending) :
    keyCount (registerPending pending (genRequestId nowMs)) (genRequestId nowMs) = 1 ∧
    keysNodup (registerPending pending (genRequestId nowMs)) ∧
    registerPending (registerPending pending (genRequestId nowMs)) (genRequestId nowMs)
      = registerPending pending (genRequestId nowMs) :=
  ⟨keyCount_setEntry_self pending (genRequestId nowMs) none h,
   keysNodup_setEntry pending (genRequestId nowMs) none h,
   setEntry_setEntry_self pending (genRequestId nowMs) none none⟩

/-- C4 witness. -/
theorem claimC4_witness :
    keyCount (registerPending [] (genRequestId 1000)) (genRequestId 1000) = 1 ∧
    keysNodup (registerPending [] (genRequestId 1000)) ∧
    registerPending (registerPending [] (genRequestId 1000)) (genRequestId 1000)
      = registerPending [] (genRequestId 1000) :=
  claimC4_amended [] 1000 (by simp [keysNodup])

/-- C5 counterexample: registering an id that already has a (resolved)
slot does not fail with any `DuplicateId` signal — it silently overwrites
the existing entry with a fresh unresolved slot. -/
theorem claimC5_counterexample :
    registerPending [("req-1000", some (Json.str "resp"))] "req-1000"
      = [("req-1000", none)] ∧
    getEntry (registerPending [("req-1000", some (Json.str "resp"))] "req-1000")
        "req-1000"
      ≠ getEntry [("req-1000", some (Json.str "resp"))] "req-1000" := by
  refine ⟨rfl, ?_⟩
  simp [registerPending, setEntry, getEntry]

/-- C5 amended: registration always succeeds, setting the slot for the id
to the unresolved marker — silently overwriting any existing slot — and
leaves every other key unchanged; no `DuplicateId` failure exists. -/
theorem claimC5_amended (pending : PendingMap) (id : String) :
    getEntry (registerPending pending id) id = some none ∧
    ∀ k, k ≠ id → getEntry (registerPending pending id) k = getEntry pending k :=
  ⟨getEntry_setEntry_self pending id none,
   fun k hk => getEntry_setEntry_ne pending id k none hk⟩

/-- C5 witness. -/
theorem claimC5_witness :
    getEntry (registerPending [("req-1000", some (Json.str "resp"))] "req-1000")
      "req-1000" = some none ∧
    getEntry (registerPending [("req-1000", some (Json.str "resp"))] "req-1000")
      "req-2000" = getEntry [("req-1000", some (Json.str "resp"))] "req-2000" :=
  ⟨(claimC5_amended [("req-1000", some (Json.str "resp"))] "req-1000").1,
   (claimC5_amended [("req-1000", some (Json.str "resp"))] "req-1000").2
     "req-2000" (by decide)⟩

/-- C7: topic classification is total and exclusive — every topic maps to
exactly one of the four classes, by the priority order of the `elif`
chain; an undecodable payload leaves the table unchanged, and a payload
whose guard evaluation raises (malformed shape) is caught and also leaves
the table unchanged. -/
theorem claimC7_router_total (pending : PendingMap) (topic : String) (d : Json) :
    (classifyTopic topic = .rpcResponse ↔
      pyStartsWith topic rpcResponsePre = true) ∧
    (classifyTopic topic = .telemetry ↔
      (pyStartsWith topic rpcResponsePre = false ∧ topic = telemetryTopic)) ∧
    (classifyTopic topic = .attribute ↔
      (pyStartsWith topic rpcResponsePre = false ∧ topic ≠ telemetryTopic ∧
        topic = attributesTopic)) ∧
    (classifyTopic topic = .unrecognized ↔
      (pyStartsWith topic rpcResponsePre = false ∧ topic ≠ telemetryTopic ∧
        topic ≠ attributesTopic)) ∧
    ((onMessage pending topic none).pending = pending) ∧
    (rpcUpdate pending d = .error () →
      (onMessage pending topic (some d)).pending = pending) := by
  by_cases h1 : pyStartsWith topic rpcResponsePre = true
  · refine ⟨by simp [classifyTopic, h1], by simp [classifyTopic, h1],
      by simp [classifyTopic, h1], by simp [classifyTopic, h1], rfl, ?_⟩
    intro herr
    simp [onMessage, classifyTopic, h1, herr]
  · rw [Bool.not_eq_true] at h1
    by_cases h2 : topic = telemetryTopic
    · subst h2
      refine ⟨by simp [classifyTopic, h1], by simp [classifyTopic, h1],
        by simp [classifyTopic, h1], by simp [classifyTopic, h1], rfl, ?_⟩
      intro _
      simp [onMessage, classifyTopic, h1]
    · by_cases h3 : topic = attributesTopic
      · subst h3
        refine ⟨by simp [classifyTopic, h1, h2],
          by simp [classifyTopic, h1, h2],
          by simp [classifyTopic, h1, h2],
          by simp [classifyTopic, h1, h2], rfl, ?_⟩
        intro _
        simp [onMessage, classifyTopic, h1, h2]
      · refine ⟨by simp [classifyTopic, h1, h2, h3],
          by simp [classifyTopic, h1, h2, h3],
          by simp [classifyTopic, h1, h2, h3],
          by simp [classifyTopic, h1, h2, h3], rfl, ?_⟩
        intro _
        simp [onMessage, classifyTopic, h1, h2, h3]

/-- C7 witness: a malformed (non-object) RPC payload and an undecodable
payload both leave the table unchanged. -/
theorem claimC7_witness :
    ((onMessage [("req-1000", (none : Option Json))]
        "v1/devices/me/rpc/response/req-1000" none).pending
      = [("req-1000", (none : Option Json))]) ∧
    ((onMessage [("req-1000", (none : Option Json))]
        "v1/devices/me/rpc/response/req-1000" (some (Json.num 5))).pending
      = [("req-1000", (none : Option Json))]) :=
  ⟨(claimC7_router_total [("req-1000", none)] "v1/devices/me/rpc/response/req-1000"
      (Json.num 5)).2.2.2.2.1,
   (claimC7_router_total [("req-1000", none)] "v1/devices/me/rpc/response/req-1000"
      (Json.num 5)).2.2.2.2.2 rfl⟩

/-- C8 counterexample: an RPC response arriving on the topic for
`req-1000` but whose payload id is `req-2000` is NOT dropped: it resolves
the pending slot `req-2000`, a slot belonging to a different correlation
id than the topic names. -/
theorem claimC8_counterexample :
    (onMessage [("req-2000", (none : Option Json))]
        "v1/devices/me/rpc/response/req-1000" (some crossIdResp)).pending
      = [("req-2000", some crossIdResp)] ∧
    ("req-2000", (none : Option Json)) ≠ ("req-2000", (some crossIdResp : Option Json)) := by
  refine ⟨rfl, ?_⟩
  simp

/-- C8 amended: the handler never inspects the correlation segment of the
topic; any topic under the response root delivers its payload to the slot
named by the payload's `id` field whenever that slot exists. Only a
payload id matching no pending slot is dropped. -/
theorem claimC8_amended (pending : PendingMap) (suf : String) (d : Json)
    (id : String)
    (hc : pyContains d "id" = .ok true)
    (hi : pyIndex d "id" = .ok (.str id))
    (hk : hasKey pending id = true) :
    (onMessage pending (rpcResponsePre ++ suf) (some d)).pending
      = setEntry pending id (some d) :=
  onMessage_resolves pending (rpcResponsePre ++ suf) d id
    (pyStartsWith_append rpcResponsePre suf) hc hi hk

/-- C8 witness: the topic suffix (`req-1000`) differs from the payload id
(`req-2000`); the `req-2000` slot is still resolved. -/
theorem claimC8_witness :
    (onMessage [("req-2000", (none : Option Json))]
        (rpcResponsePre ++ "req-1000") (some crossIdResp)).pending
      = setEntry [("req-2000", (none : Option Json))] "req-2000" (some crossIdResp) :=
  claimC8_amended [("req-2000", none)] "req-1000" crossIdResp "req-2000" rfl rfl rfl

/-- C9 counterexample: in `_on_connect` with rc = 0 the `connected` flag is
set at position 1 of the effect sequence, before the first subscribe at
position 2 — the flag does not become true only after the three subscribe
calls have been issued. -/
theorem claimC9_counterexample :
    firstIdxWhere isSetConnectedAct (onConnect 0) = some 1 ∧
    firstIdxWhere isSubscribeAct (onConnect 0) = some 2 ∧ (1 : Nat) < 2 :=
  ⟨rfl, rfl, by decide⟩

/-- C9 amended: `connect()` returns true only if `_on_connect` fired with
rc = 0; that callback does issue all three subscriptions, but it sets the
`connected` flag BEFORE issuing them, so the flag (and hence `connect`'s
return) does not witness that the subscriptions are already active. -/
theorem claimC9_amended (polls : Nat) (evs : List (Option Nat))
    (h : connectLoop polls false evs = true) :
    some 0 ∈ evs ∧
    (ConnectAction.subscribe rpcResponseSubTopic ∈ onConnect 0 ∧
     ConnectAction.subscribe telemetryTopic ∈ onConnect 0 ∧
     ConnectAction.subscribe attributesTopic ∈ onConnect 0) ∧
    firstIdxWhere isSetConnectedAct (onConnect 0) = some 1 ∧
    firstIdxWhere isSubscribeAct (onConnect 0) = some 2 :=
  ⟨connectLoop_true_mem polls evs h,
   ⟨by simp [onConnect], by simp [onConnect], by simp [onConnect]⟩, rfl, rfl⟩

/-- C9 witness. -/
theorem claimC9_witness :
    some 0 ∈ [some 0] ∧
    (ConnectAction.subscribe rpcResponseSubTopic ∈ onConnect 0 ∧
     ConnectAction.subscribe telemetryTopic ∈ onConnect 0 ∧
     ConnectAction.subscribe attributesTopic ∈ onConnect 0) ∧
    firstIdxWhere isSetConnectedAct (onConnect 0) = some 1 ∧
    firstIdxWhere isSubscribeAct (onConnect 0) = some 2 :=
  claimC9_amended 1 [some 0] rfl

end GenPLC
